import Mathlib

/-! # Definitions -/

/-!
Verification development for the Pankha host agent (Rust).

This file shallowly embeds the parts of the agent that the checked
properties concern:

* the sysfs fan-control state machine of
  `src/agents/clients/linux/rust/src/hardware/linux/monitor.rs`
  (`set_fan_speed`, lines 349-403) and the fan discovery of
  `src/agents/clients/linux/rust/src/hardware/linux/fans.rs`
  (`discover_hwmon_fans`, lines 14-104);
* the sensor discovery / cache fast path of `monitor.rs`
  (`discover_sensors` lines 265-311, `read_sensors_from_cache` lines
  147-177, `count_hwmon_dirs` lines 131-144) and the full-path sensor
  parser of `sensors.rs` (`parse_hwmon_sensor` lines 46-112);
* the reconnect backoff of `src/.../websocket/client.rs` (`run`,
  lines 132-195);
* the self-update marker protocol (`self_update.rs`, `client.rs`);
* the IPMI profile loader and deep-merge of
  `src/.../host-ipmi-rust/src/profiles/loader.rs` and `merger.rs`.

Filesystem access, `tokio` scheduling and locking are abstracted into
explicit state records and read oracles; every lock in the Rust code is
held only around the in-memory mutation it protects, so sequential
state-passing is a faithful picture of a single interleaved execution.
`std::time::Instant` values are modelled as natural-number millisecond
timestamps; `Instant` arithmetic saturates at zero exactly as Nat
subtraction does.  Rust `f32`/`f64` expressions are modelled over `ℚ`;
each spot where the model replaces a float expression by an exact
rational one carries a comment arguing exactness at the evaluated
points.
-/
/-! String primitives.  The embeddings below re-implement the handful
of `str` operations the Rust code uses as structural recursions over
`List Char` (the core library versions are well-founded recursions,
which the kernel cannot evaluate).  All inputs in this repository are
ASCII. -/
/-- `pat` is a prefix of `s` (character lists). -/
def isPrefixL : List Char → List Char → Bool
  | [], _ => true
  | _ :: _, [] => false
  | a :: as, b :: bs => a == b && isPrefixL as bs

/-- `pat` occurs as a contiguous substring of `s` (character lists). -/
def containsL (s pat : List Char) : Bool :=
  match s with
  | [] => pat.isEmpty
  | _ :: rest => isPrefixL pat s || containsL rest pat

/-- Substring test, modelling Rust `str::contains(pat)` for a string
pattern. -/
def hasSub (s pat : String) : Bool :=
  containsL s.data pat.data

/-- Replace every occurrence of `pat` (non-empty) by `rep`, scanning
left to right; `fuel` bounds the recursion (passing `s.length` makes it
total on the whole input). -/
def replaceFuel : Nat → List Char → List Char → List Char → List Char
  | 0, s, _, _ => s
  | _ + 1, [], _, _ => []
  | fuel + 1, c :: rest, pat, rep =>
    if isPrefixL pat (c :: rest) then
      rep ++ replaceFuel fuel (List.drop pat.length (c :: rest)) pat rep
    else
      c :: replaceFuel fuel rest pat rep

/-- Rust `str::replace(pat, rep)` for a non-empty pattern (every call
site in the repo uses a non-empty literal pattern). -/
def strReplace (s pat rep : String) : String :=
  if pat.data.isEmpty then s
  else ⟨replaceFuel s.data.length s.data pat.data rep.data⟩

/-- Rust `str::to_lowercase()` restricted to ASCII, which covers every
chip name and label the code manipulates. -/
def strToLower (s : String) : String :=
  ⟨s.data.map Char.toLower⟩

/-- Digit-sequence parser: `some` of the value iff every character is
an ASCII digit and the list is non-empty. -/
def digitsToNat : Nat → List Char → Option Nat
  | acc, [] => some acc
  | acc, c :: r =>
    if c.isDigit then digitsToNat (acc * 10 + (c.toNat - 48)) r else none

/-- Unsigned decimal parser on character lists. -/
def parseNatL (l : List Char) : Option Nat :=
  match l with
  | [] => none
  | _ => digitsToNat 0 l

/-- Signed decimal parser: optional `+`/`-` followed by digits,
modelling the grammar of Rust `str::parse` for integer types. -/
def parseIntL (l : List Char) : Option Int :=
  match l with
  | '-' :: rest => (parseNatL rest).map (fun n => -(n : Int))
  | '+' :: rest => (parseNatL rest).map Int.ofNat
  | _ => (parseNatL l).map Int.ofNat

/-- Model of Rust `str::parse::<i32>()`: optional sign, decimal digits,
result within the `i32` range. -/
def parseI32 (s : String) : Option Int :=
  match parseIntL s.data with
  | some n => if -2147483648 ≤ n ∧ n ≤ 2147483647 then some n else none
  | none => none

/-- Model of Rust `str::parse::<u32>()` (a leading `-` is rejected by
the unsigned grammar; a leading `+` is allowed). -/
def parseU32 (s : String) : Option Nat :=
  match s.data with
  | '+' :: rest => match parseNatL rest with
    | some n => if n ≤ 4294967295 then some n else none
    | none => none
  | l => match parseNatL l with
    | some n => if n ≤ 4294967295 then some n else none
    | none => none

/-- Model of Rust `str::parse::<u8>()`. -/
def parseU8 (s : String) : Option Nat :=
  match s.data with
  | '+' :: rest => match parseNatL rest with
    | some n => if n ≤ 255 then some n else none
    | none => none
  | l => match parseNatL l with
    | some n => if n ≤ 255 then some n else none
    | none => none

/-- Rust `f64::round` / `f32::round`: round half away from zero. -/
def roundAway (q : ℚ) : Int :=
  if 0 ≤ q then ⌊q + 1/2⌋ else -⌊-q + 1/2⌋

/-- Association-list lookup keyed by `String` (propositional equality,
matching `HashMap::get` / `BTreeMap::get`). -/
def alookup {α : Type} : List (String × α) → String → Option α
  | [], _ => none
  | (k, v) :: r, id => if k = id then some v else alookup r id

/-! ## Fan control state (sysfs backend)

`monitor.rs` lines 16-24: per-fan record.  `last_pwm_value` and
`last_write_time` sit behind their own locks inside the record; paths
and chip name are plain fields refreshed by discovery. -/

structure FanInfo where
  pwm_path : String
  rpm_path : String
  pwm_enable_path : Option String
  chip_name : String
  last_pwm_value : Option Nat
  last_write_time : Nat
  deriving Repr, DecidableEq

/-- The `discovered_fans` map (`HashMap<String, FanInfo>` in
`monitor.rs` line 46), as an association list with unique-key
observations made through `alookup`. -/
def FanMap := List (String × FanInfo)

/-- PWM byte from a (already clamped) percentage: models
`(speed as f32 / 100.0 * 255.0) as u8` (`monitor.rs` line 351).
The Rust cast truncates toward zero, so the value is
`⌊speed * 255 / 100⌋`.  Exactness of the rational model: for every
`speed ∈ [0,100]` the `f32` computation `speed/100.0*255.0` rounds each
step to nearest, and its truncation agrees with the exact floor — the
exact value `speed*255/100` is an integer only for multiples of 20, and
for each of those the `f32` rounding errs upward or is exact, never
crossing the integer from above. -/
def pwm_from_percent (speed : Nat) : Nat :=
  speed * 255 / 100

/-- Outcome of one `set_fan_speed` call on the sysfs backend. -/
inductive FanWriteResult where
  /-- `Err("Fan not found")` (`monitor.rs` line 355). -/
  | notFound
  /-- dedup branch: `Ok(())` with no I/O (lines 357-364). -/
  | skippedDedup
  /-- rate-limit branch: `Ok(())` with no I/O (lines 366-377). -/
  | skippedRate
  /-- PWM byte written to the pwm file (lines 389-394). -/
  | written (byte : Nat)
  /-- writing "1" to the `pwm_enable` file failed; error propagates
  (line 384, the `?`). -/
  | enableFailed
  /-- the PWM write itself failed (lines 396-401). -/
  | writeFailed
  deriving Repr, DecidableEq

/-- Per-call environment: the clock reading taken inside the rate-limit
block and the filesystem behaviour of this call's I/O. -/
structure CallEnv where
  /-- `std::time::Instant::now()` in ms (`monitor.rs` line 369). -/
  now : Nat
  /-- `read_file(enable_path)` result when an enable path exists. -/
  enableRead : Option String
  /-- whether `write_file(enable_path, "1")` would succeed. -/
  enableWriteOk : Bool
  /-- whether `write_file(pwm_path, byte)` would succeed. -/
  pwmWriteOk : Bool
  deriving Repr, DecidableEq

/-- A call environment in which all file I/O succeeds and the enable
file already reads "1" (manual mode active). -/
def goodEnv (now : Nat) : CallEnv :=
  { now := now, enableRead := some "1", enableWriteOk := true, pwmWriteOk := true }

/-- The mutable write-protocol state of one fan: the two fields of
`FanInfo` that `set_fan_speed` reads and updates. -/
structure FanWState where
  last_pwm_value : Option Nat
  last_write_time : Nat
  deriving Repr, DecidableEq

/-- One `set_fan_speed(fan_id, speed)` call, restricted to a single
fan's state (the call touches no other fan).  Faithful to `monitor.rs`
lines 349-403:
1. `speed.min(100)`, then the PWM byte;
2. dedup: if `last_pwm_value == Some(byte)`, return `Ok` without I/O;
3. rate limit: if less than 100 ms since `last_write_time`, return `Ok`
   without I/O; otherwise store `now` into `last_write_time` *before*
   any I/O;
4. if an enable path exists and its content is not "1", write "1"
   (a failure here propagates with `?`);
5. write the byte; on success store it in `last_pwm_value`, on failure
   clear `last_pwm_value` and return the error.
`Instant::duration_since` saturates at zero, as Nat subtraction does. -/
def set_fan_speed_step (hasEnable : Bool) (st : FanWState) (speed0 : Nat)
    (env : CallEnv) : FanWriteResult × FanWState :=
  let speed := min speed0 100
  let pwm_value := pwm_from_percent speed
  if st.last_pwm_value = some pwm_value then
    (.skippedDedup, st)
  else if env.now - st.last_write_time < 100 then
    (.skippedRate, st)
  else
    let st1 : FanWState := { st with last_write_time := env.now }
    if hasEnable ∧ env.enableRead ≠ some "1" ∧ env.enableWriteOk = false then
      (.enableFailed, st1)
    else if env.pwmWriteOk then
      (.written pwm_value, { st1 with last_pwm_value := some pwm_value })
    else
      (.writeFailed, { st1 with last_pwm_value := none })

/-- Whether a call result is a success (`Ok(())`) in the Rust code. -/
def FanWriteResult.isSuccess : FanWriteResult → Bool
  | .notFound => false
  | .skippedDedup => true
  | .skippedRate => true
  | .written _ => true
  | .enableFailed => false
  | .writeFailed => false

/-- Whether a call result performed a PWM file write. -/
def FanWriteResult.didWrite : FanWriteResult → Bool
  | .written _ => true
  | _ => false

/-- Run a sequence of `set_fan_speed` calls against one fan.  Each call
is a `(speed, env)` pair; the trace of results is returned with the
final state. -/
def run_fan_calls (hasEnable : Bool) (st : FanWState) :
    List (Nat × CallEnv) → List FanWriteResult × FanWState
  | [] => ([], st)
  | (speed, env) :: rest =>
    match set_fan_speed_step hasEnable st speed env with
    | (r, st') =>
      match run_fan_calls hasEnable st' rest with
      | (rs, stf) => (r :: rs, stf)

/-- The PWM writes actually performed by a call trace, as
`(time, byte)` pairs in order. -/
def writes_of (hasEnable : Bool) (st : FanWState) :
    List (Nat × CallEnv) → List (Nat × Nat)
  | [] => []
  | (speed, env) :: rest =>
    match set_fan_speed_step hasEnable st speed env with
    | (.written b, st') => (env.now, b) :: writes_of hasEnable st' rest
    | (_, st') => writes_of hasEnable st' rest

/-! ### Characterisation of one `set_fan_speed` step -/

/-- Environments under which this call's file I/O succeeds: the PWM
write succeeds, and if an enable path exists the enable file either
already reads "1" or can be written. -/
def envOk (hasEnable : Bool) (env : CallEnv) : Prop :=
  env.pwmWriteOk = true ∧
    (hasEnable = true → env.enableRead = some "1" ∨ env.enableWriteOk = true)

instance (hasEnable : Bool) (env : CallEnv) : Decidable (envOk hasEnable env) := by
  unfold envOk
  infer_instance

/-! ## Claim C1: fan discovery preserves per-fan write state

Model of `discover_hwmon_fans` (`fans.rs` lines 14-104).  The hwmon
tree is abstracted as a list of directory entries; each entry carries
the result of reading its `name` file and, per `fan<N>_input` glob hit,
the read results of the RPM and PWM files and the existence of the
sibling `pwm<N>` / `pwm<N>_enable` files. -/

/-- One `fan<N>_input` glob hit inside a hwmon directory. -/
structure FanFile where
  /-- `<N>` as written in the file name. -/
  fanNum : String
  /-- `read_file(fan file)` result. -/
  rpmRead : Option String
  /-- `read_file(pwm<N>)` result. -/
  pwmRead : Option String
  /-- `pwm<N>.exists()`. -/
  pwmExists : Bool
  /-- `pwm<N>_enable.exists()`. -/
  enableExists : Bool

/-- One entry of the hwmon root directory. -/
structure FanDir where
  path : String
  isDir : Bool
  /-- `read_file(dir/name)` result. -/
  nameRead : Option String
  /-- glob hits for `fan*_input`, in traversal order. -/
  fanFiles : List FanFile

/-- The hwmon portion of the filesystem seen by fan discovery. -/
structure FanFs where
  hwmonExists : Bool
  dirs : List FanDir

/-- The `Fan` telemetry record (`hardware/types.rs`). -/
structure Fan where
  id : String
  name : String
  rpm : Option Nat
  speed : Nat
  target_speed : Nat
  status : String
  has_pwm_control : Bool
  pwm_file : Option String
  deriving Repr, DecidableEq

/-- Speed percentage from a PWM byte: models
`(pwm_value as f32 / 255.0 * 100.0) as u8` (`fans.rs` line 62), which
truncates.  For every `pwm ∈ [0,255]` the `f32` value of
`pwm/255.0*100.0` deviates from the exact rational by far less than its
distance to the nearest lower integer when that rational is not an
integer, and rounds upward or exactly at the integer points (multiples
of 51), so the truncation equals the exact floor. -/
def percent_from_pwm (pwm : Nat) : Nat :=
  pwm * 100 / 255

/-- Discovery-derived fields written into an existing `FanInfo`
(`fans.rs` lines 77-84): paths and chip name are refreshed,
`last_pwm_value` and `last_write_time` are kept. -/
structure FanPaths where
  pwm_path : String
  rpm_path : String
  pwm_enable_path : Option String
  chip_name : String

/-- `fans.rs` lines 79-82: refresh the discovery-derived fields in
place. -/
def refresh_paths (i : FanInfo) (p : FanPaths) : FanInfo :=
  { i with
    pwm_path := p.pwm_path
    rpm_path := p.rpm_path
    pwm_enable_path := p.pwm_enable_path
    chip_name := p.chip_name }

/-- Replace the first binding of `id` (the only one, for a map built by
`upsert_fan`) by the refreshed record. -/
def refresh_in_map : List (String × FanInfo) → String → FanPaths →
    List (String × FanInfo)
  | [], _, _ => []
  | (k, v) :: r, id, p =>
    if k = id then (k, refresh_paths v p) :: r
    else (k, v) :: refresh_in_map r id p

/-- `fans.rs` lines 75-96: `match fan_map.get_mut(&fan_id)` — update
paths in place on `Some`, insert a fresh record (empty PWM cache,
`last_write_time = Instant::now()`) on `None`. -/
def upsert_fan (m : List (String × FanInfo)) (id : String) (p : FanPaths)
    (now : Nat) : List (String × FanInfo) :=
  match alookup m id with
  | some _ => refresh_in_map m id p
  | none => m ++ [(id,
      { pwm_path := p.pwm_path
        rpm_path := p.rpm_path
        pwm_enable_path := p.pwm_enable_path
        chip_name := p.chip_name
        last_pwm_value := none
        last_write_time := now })]

/-- The loop body for one `fan*_input` hit (`fans.rs` lines 41-99). -/
def fan_entry_step (chip dirPath : String) (now : Nat)
    (acc : List Fan × List (String × FanInfo)) (f : FanFile) :
    List Fan × List (String × FanInfo) :=
  if f.pwmExists then
    let fan_id := strReplace (strToLower chip) " " "_" ++ "_fan_" ++ f.fanNum
    let rpm := f.rpmRead.bind parseU32
    let pwm_value := (f.pwmRead.bind parseU8).getD 128
    let speed_percent := percent_from_pwm pwm_value
    let pwm_path := dirPath ++ "/pwm" ++ f.fanNum
    let fan : Fan :=
      { id := fan_id
        name := chip ++ " Fan " ++ f.fanNum
        rpm := rpm
        speed := speed_percent
        target_speed := speed_percent
        status := if rpm.getD 0 > 0 then "ok" else "stopped"
        has_pwm_control := true
        pwm_file := some pwm_path }
    let paths : FanPaths :=
      { pwm_path := pwm_path
        rpm_path := dirPath ++ "/fan" ++ f.fanNum ++ "_input"
        pwm_enable_path :=
          if f.enableExists then some (pwm_path ++ "_enable") else none
        chip_name := chip }
    (acc.1 ++ [fan], upsert_fan acc.2 fan_id paths now)
  else acc

/-- The loop body for one hwmon directory entry (`fans.rs` lines
26-101): skip non-directories and directories whose `name` file cannot
be read. -/
def fan_dir_step (now : Nat) (acc : List Fan × List (String × FanInfo))
    (d : FanDir) : List Fan × List (String × FanInfo) :=
  if d.isDir then
    match d.nameRead with
    | some chip => d.fanFiles.foldl (fan_entry_step chip d.path now) acc
    | none => acc
  else acc

/-- `discover_hwmon_fans` (`fans.rs` lines 14-104).  The map is taken
under the write lock for the whole traversal and is never cleared
(lines 17-18); entries are only upserted. -/
def discover_hwmon_fans (fs : FanFs) (m : List (String × FanInfo))
    (now : Nat) : List Fan × List (String × FanInfo) :=
  if fs.hwmonExists then fs.dirs.foldl (fan_dir_step now) ([], m)
  else ([], m)

/-- "The write-protocol state of every pre-existing fan survives":
relation between a fan map before and after a map transformation. -/
def preserves_write_state (m m' : List (String × FanInfo)) : Prop :=
  ∀ id info, alookup m id = some info →
    ∃ info', alookup m' id = some info' ∧
      info'.last_pwm_value = info.last_pwm_value ∧
      info'.last_write_time = info.last_write_time

/-! ## Claims C6, C10: sensor discovery, cache fast path

Model of `discover_sensors` (`monitor.rs` lines 265-311),
`read_sensors_from_cache` (lines 147-177), `count_hwmon_dirs` (lines
131-144), `discover_hwmon_sensors` and `parse_hwmon_sensor`
(`sensors.rs` lines 11-112).  File contents are provided by a read
oracle `readFile : String → Option String` returning the trimmed
content on success.  Temperatures are rationals; the two claims'
evaluations happen at points where the corresponding `f64` computation
is exact (dyadic values well inside the mantissa range). -/

/-- One entry of the hwmon root as seen by sensor discovery. -/
structure SDir where
  path : String
  isDir : Bool
  /-- glob hits for `temp*_input`: the `<N>` parts, in order. -/
  tempNums : List String

/-- The filesystem seen by sensor discovery. -/
structure SFs where
  hwmonExists : Bool
  dirs : List SDir
  readFile : String → Option String

/-- The `Sensor` telemetry record (`hardware/types.rs`). -/
structure Sensor where
  id : String
  name : String
  temperature : ℚ
  sensor_type : String
  max_temp : Option ℚ
  crit_temp : Option ℚ
  chip : Option String
  hardware_name : Option String
  source : Option String
  deriving DecidableEq

/-- Cached sensor metadata (`SensorInfo`, `monitor.rs` lines 27-39). -/
structure SensorInfo where
  temp_input_path : String
  id : String
  name : String
  sensor_type : String
  max_temp : Option ℚ
  crit_temp : Option ℚ
  chip : Option String
  hardware_name : Option String
  source : Option String
  deriving DecidableEq

/-- Static hardware-name environment of the monitor: `cpu_brand`,
`motherboard_name` (computed once in `new()`), and the storage-model
resolver `resolve_storage_model(hwmon_dir, chip_name)`, which only
reads the filesystem and its own write-through cache, so it is modelled
as a pure lookup. -/
structure MonEnv where
  cpuBrand : String
  motherboardName : String
  storageModel : String → String → Option String

/-- `extract_brand` (`sensors.rs` lines 115-148). -/
def extract_brand (chip_name : String) : String :=
  let name := strToLower chip_name
  if hasSub name "amd" || hasSub name "k10temp" || hasSub name "ryzen" || hasSub name "epyc" then "AMD"
  else if hasSub name "intel" || hasSub name "coretemp" || hasSub name "xeon" || hasSub name "pentium" then "Intel"
  else if hasSub name "samsung" then "Samsung"
  else if hasSub name "wd" || hasSub name "western digital" then "WD"
  else if hasSub name "seagate" then "Seagate"
  else if hasSub name "crucial" then "Crucial"
  else if hasSub name "kingston" then "Kingston"
  else if hasSub name "corsair" then "Corsair"
  else if hasSub name "sandisk" then "SanDisk"
  else if hasSub name "micron" then "Micron"
  else if hasSub name "hynix" then "SK Hynix"
  else if hasSub name "toshiba" then "Toshiba"
  else if hasSub name "adata" || hasSub name "xpg" then "ADATA"
  else if hasSub name "asus" then "ASUS"
  else if hasSub name "gigabyte" then "Gigabyte"
  else if hasSub name "msi" then "MSI"
  else if hasSub name "asrock" then "ASRock"
  else if hasSub name "it8" || hasSub name "ite" then "ITE"
  else if hasSub name "nct" || hasSub name "nuvoton" then "Nuvoton"
  else ""

/-- `get_friendly_chip_name` (`sensors.rs` lines 151-178). -/
def get_friendly_chip_name (chip_name : String) : String :=
  let brand := extract_brand chip_name
  let chip_lower := strToLower chip_name
  if hasSub chip_lower "k10temp" || hasSub chip_lower "coretemp" || hasSub chip_lower "cpu" then
    if brand ≠ "" then "CPU " ++ brand else "CPU"
  else if hasSub chip_lower "nvme" || hasSub chip_lower "storage" then
    if brand ≠ "" then "Storage " ++ brand else "Storage"
  else if hasSub chip_lower "it8" || hasSub chip_lower "nct" then
    if brand ≠ "" then "Motherboard " ++ brand else "Motherboard"
  else if hasSub chip_lower "acpi" then "ACPI"
  else chip_name

/-- `classify_sensor_type` (`sensors.rs` lines 180-193). -/
def classify_sensor_type (chip_name : String) : String :=
  let chip_lower := strToLower chip_name
  if hasSub chip_lower "k10temp" || hasSub chip_lower "coretemp" || hasSub chip_lower "cpu" then "cpu"
  else if hasSub chip_lower "nvme" then "nvme"
  else if hasSub chip_lower "it8" || hasSub chip_lower "nct" then "motherboard"
  else if hasSub chip_lower "acpi" then "acpi"
  else "other"

/-- `parse_hwmon_sensor` (`sensors.rs` lines 46-112).  Fails (`Err`
propagated by `?`) exactly when the temperature file cannot be read or
its content does not parse as `i32`; label/max/crit failures are
recovered.  The full-path temperature is
`temp_celsius.round() * 10.0 / 10.0` (line 104) — note the `round()`
happens *before* the multiplication, so this is integer rounding. -/
def parse_hwmon_sensor (env : MonEnv) (fs : SFs) (hwmonDir : String)
    (tempNum : String) (chip_name : String) : Option Sensor :=
  match (fs.readFile (hwmonDir ++ "/temp" ++ tempNum ++ "_input")).bind parseI32 with
  | none => none
  | some temp_raw =>
    let temp_celsius : ℚ := (temp_raw : ℚ) / 1000
    let sensor_label :=
      (fs.readFile (hwmonDir ++ "/temp" ++ tempNum ++ "_label")).getD
        ("Sensor " ++ tempNum)
    let max_temp :=
      ((fs.readFile (hwmonDir ++ "/temp" ++ tempNum ++ "_max")).bind parseI32).map
        (fun v => (v : ℚ) / 1000)
    let crit_temp :=
      ((fs.readFile (hwmonDir ++ "/temp" ++ tempNum ++ "_crit")).bind parseI32).map
        (fun v => (v : ℚ) / 1000)
    let sanitized_label :=
      strReplace (strReplace (strReplace (strReplace (strReplace
        (strToLower sensor_label) " " "_") "-" "_") "/" "_") "(" "") ")" ""
    let sensor_id :=
      strReplace (strToLower chip_name) " " "_" ++ "_" ++ sanitized_label
    let sensor_type := classify_sensor_type chip_name
    let hardware_name :=
      if sensor_type = "cpu" ∧ env.cpuBrand ≠ "" then env.cpuBrand
      else if sensor_type = "motherboard" ∧ env.motherboardName ≠ "" then env.motherboardName
      else if sensor_type = "nvme" ∨ hasSub chip_name "nvme" ∨ hasSub chip_name "sd" then
        (env.storageModel hwmonDir chip_name).getD chip_name
      else chip_name
    some
      { id := sensor_id
        name := get_friendly_chip_name chip_name ++ " " ++ sensor_label
        temperature := (roundAway temp_celsius : ℚ) * 10 / 10
        sensor_type := sensor_type
        max_temp := max_temp
        crit_temp := crit_temp
        chip := some chip_name
        hardware_name := some hardware_name
        source := some (hwmonDir ++ "/temp" ++ tempNum ++ "_input") }

/-- `discover_hwmon_sensors` (`sensors.rs` lines 11-44): traverse the
hwmon tree, skipping non-directories, unreadable `name` files and
sensors that fail to parse. -/
def discover_hwmon_sensors (env : MonEnv) (fs : SFs) : List Sensor :=
  if fs.hwmonExists then
    fs.dirs.foldl (fun acc d =>
      if d.isDir then
        match fs.readFile (d.path ++ "/name") with
        | some chip_name =>
          acc ++ d.tempNums.filterMap
            (fun n => parse_hwmon_sensor env fs d.path n chip_name)
        | none => acc
      else acc) []
  else []

/-- `count_hwmon_dirs` (`monitor.rs` lines 131-144): count immediate
subdirectories; a failed `read_dir` (missing root) yields 0. -/
def count_hwmon_dirs (fs : SFs) : Nat :=
  if fs.hwmonExists then (fs.dirs.filter (·.isDir)).length else 0

/-- The `Sensor` record rebuilt from a cached `SensorInfo` and a fresh
raw millidegree reading (`monitor.rs` lines 163-173).  The fast-path
temperature is `(temp_celsius * 10.0).round() / 10.0` (line 166):
rounding to one decimal. -/
def sensor_from_cache (info : SensorInfo) (millidegrees : Int) : Sensor :=
  { id := info.id
    name := info.name
    temperature := (roundAway ((millidegrees : ℚ) / 1000 * 10) : ℚ) / 10
    sensor_type := info.sensor_type
    max_temp := info.max_temp
    crit_temp := info.crit_temp
    chip := info.chip
    hardware_name := info.hardware_name
    source := info.source }

/-- `read_sensors_from_cache` (`monitor.rs` lines 147-177): re-read
every cached temperature file; any read or parse failure skips that
sensor.  (`HashMap::values()` iteration order is abstracted as the
model's list order.) -/
def read_sensors_from_cache (cache : List (String × SensorInfo))
    (readFile : String → Option String) : List Sensor :=
  cache.filterMap (fun kv =>
    ((readFile kv.2.temp_input_path).bind parseI32).map
      (sensor_from_cache kv.2))

/-- Mutable discovery state of `LinuxHardwareMonitor` relevant to
sensor discovery (`monitor.rs` lines 46-49). -/
structure MonState where
  discovered_sensors : List (String × SensorInfo)
  cached_hwmon_count : Nat
  last_discovery_from_cache : Bool
  deriving DecidableEq

/-- `HashMap::insert` on the sensor cache. -/
def cache_insert : List (String × SensorInfo) → String → SensorInfo →
    List (String × SensorInfo)
  | [], k, v => [(k, v)]
  | (k', v') :: r, k, v =>
    if k' = k then (k', v) :: r else (k', v') :: cache_insert r k v

/-- Cache population from a discovery result (`monitor.rs` lines
278-297): `cache.clear()` then insert a `SensorInfo` for every sensor
that has a `source` path. -/
def cache_from_sensors (sensors : List Sensor) :
    List (String × SensorInfo) :=
  sensors.foldl (fun c s =>
    match s.source with
    | some source_path =>
      cache_insert c s.id
        { temp_input_path := source_path
          id := s.id
          name := s.name
          sensor_type := s.sensor_type
          max_temp := s.max_temp
          crit_temp := s.crit_temp
          chip := s.chip
          hardware_name := s.hardware_name
          source := s.source }
    | none => c) []

/-- `discover_sensors` (`monitor.rs` lines 265-311): count-based
hot-plug detection; full rediscovery when the hwmon directory count
changed or the cache is empty, cache fast path otherwise. -/
def discover_sensors (env : MonEnv) (fs : SFs) (st : MonState) :
    List Sensor × MonState :=
  let current_hwmon_count := count_hwmon_dirs fs
  let cache_empty := st.discovered_sensors.isEmpty
  if current_hwmon_count ≠ st.cached_hwmon_count ∨ cache_empty = true then
    let discovered := discover_hwmon_sensors env fs
    (discovered,
      { discovered_sensors := cache_from_sensors discovered
        cached_hwmon_count := current_hwmon_count
        last_discovery_from_cache := false })
  else
    (read_sensors_from_cache st.discovered_sensors fs.readFile,
      { st with last_discovery_from_cache := true })

/-- Environment for the sensor-discovery witnesses. -/
def envW : MonEnv :=
  { cpuBrand := "AMD Ryzen 7 5800X"
    motherboardName := "ASUS PRIME X570"
    storageModel := fun _ _ => none }

/-- A one-directory hwmon tree whose reads all fail. -/
def fsW : SFs :=
  { hwmonExists := true
    dirs := [{ path := "/sys/class/hwmon/hwmon0", isDir := true, tempNums := ["1"] }]
    readFile := fun _ => none }

/-- Environment for the C10 exhibit. -/
def envT : MonEnv :=
  { cpuBrand := "AMD Ryzen 7 5800X"
    motherboardName := ""
    storageModel := fun _ _ => none }

/-- A one-sensor hwmon tree whose `k10temp` chip reads 42500
millidegrees (42.5 °C). -/
def fsT : SFs :=
  { hwmonExists := true
    dirs := [{ path := "/h/hwmon0", isDir := true, tempNums := ["1"] }]
    readFile := fun p =>
      if p = "/h/hwmon0/name" then some "k10temp"
      else if p = "/h/hwmon0/temp1_input" then some "42500"
      else none }

/-- The full-path sensor record produced for the C10 exhibit (the
temperature expression is left unevaluated; it equals 43). -/
def sFull : Sensor :=
  { id := "k10temp_sensor_1"
    name := "CPU AMD Sensor 1"
    temperature := (roundAway (((42500 : Int) : ℚ) / 1000) : ℚ) * 10 / 10
    sensor_type := "cpu"
    max_temp := none
    crit_temp := none
    chip := some "k10temp"
    hardware_name := some "AMD Ryzen 7 5800X"
    source := some "/h/hwmon0/temp1_input" }

/-- The fast-path sensor record for the same raw reading (the
temperature expression equals 42.5). -/
def sFast : Sensor :=
  { id := "k10temp_sensor_1"
    name := "CPU AMD Sensor 1"
    temperature := (roundAway (((42500 : Int) : ℚ) / 1000 * 10) : ℚ) / 10
    sensor_type := "cpu"
    max_temp := none
    crit_temp := none
    chip := some "k10temp"
    hardware_name := some "AMD Ryzen 7 5800X"
    source := some "/h/hwmon0/temp1_input" }

/-! ## Claim C7: reconnect backoff (`client.rs` `run`, lines 132-195) -/

/-- The wait before the next reconnect attempt, from the current retry
counter (`client.rs` lines 158-163).  The Rust code computes in `f64`
with the literal `1.4`; the model uses the exact rational 14/10 (the
claim is stated up to floating-point tolerance: the `f64` nearest to
1.4 differs from it by < 2⁻⁵²·1.4). -/
def backoff_wait (base_interval : ℚ) (retry_count : Nat) : ℚ :=
  match retry_count with
  | 0 => base_interval
  | 1 => base_interval * (14/10)
  | 2 => base_interval * 2
  | _ => base_interval * 3

/-- One pass of the `run` loop per connection outcome (`true` =
`connect_and_communicate` returned `Ok`): on success the retry counter
resets to 0 (line 144); the wait is computed from the counter (lines
158-163) and the counter then saturates upward at 3 (line 166,
`retry_count = (retry_count + 1).min(3)`).  Returns the wait sequence
and the final counter. -/
def run_waits (B : ℚ) : Nat → List Bool → List ℚ × Nat
  | rc, [] => ([], rc)
  | rc, ok :: rest =>
    let rc0 := if ok then 0 else rc
    let w := backoff_wait B rc0
    let rc1 := min (rc0 + 1) 3
    let (ws, rcf) := run_waits B rc1 rest
    (w :: ws, rcf)

/-- The multiplier sequence the spec claims: 1, 1.4, 2, 3, 3, … -/
def claimed_multiplier : Nat → ℚ
  | 0 => 1
  | 1 => 14/10
  | 2 => 2
  | _ => 3

/-! ## Claim C2: self-update marker verification at process start -/

/-- Filesystem state relevant to the update verification: the
`.update_pending` marker, the `.old` backup and the current binary. -/
structure UpdateFs where
  markerExists : Bool
  markerContent : String
  oldExists : Bool
  oldBinary : String
  currentBinary : String
  deriving Repr, DecidableEq

/-- Outcome of the process-start verification. -/
inductive StartupOutcome where
  /-- marker or backup missing: no verification, normal start. -/
  | noVerification
  /-- first boot of the new binary: marker gains `booted=true`,
  startup continues normally. -/
  | firstBoot
  /-- suspected failed update: `.old` renamed over the current binary,
  marker deleted, process re-executes into the restored binary. -/
  | rollback
  deriving Repr, DecidableEq

/-- Modelled from the spec: the startup verification path of the
self-update state machine (spec §4.7, "Procedure (verification on next
boot)") is not among the sources under `src/` — `self_update.rs` only
writes the marker (lines 128-131) and `client.rs` clears it on
`registered` (lines 356-379); the process-start check itself is
missing.  Faithful to the spec's words: if the marker and the `.old`
backup both exist, then when the marker does not contain `booted=true`,
append `booted=true` and continue startup; when it does, rename `.old`
back over the current binary, delete the marker, and re-exec into the
restored binary. -/
def startup_update_check (fs : UpdateFs) : StartupOutcome × UpdateFs :=
  if fs.markerExists = true ∧ fs.oldExists = true then
    if hasSub fs.markerContent "booted=true" = false then
      (.firstBoot,
        { fs with markerContent := fs.markerContent ++ "\nbooted=true" })
    else
      (.rollback,
        { fs with
          currentBinary := fs.oldBinary
          oldExists := false
          markerExists := false })
  else (.noVerification, fs)

/-! ## Claim C9: profile deep merge (`merger.rs` lines 49-100)

`serde_json::Value` trees are modelled by `Jval`; objects are
association lists observed through lookups (`serde_json`'s map is a
`BTreeMap`, so only the key-value content is meaningful). -/

inductive Jval where
  | null
  | bool (b : Bool)
  | num (n : Int)
  | str (s : String)
  | arr (elems : List Jval)
  | obj (fields : List (String × Jval))

/-- `Value::is_null`. -/
def Jval.isNull : Jval → Bool
  | .null => true
  | _ => false

/-- `Map::insert`: replace the value under an existing key, append a
new key. -/
def objInsert : List (String × Jval) → String → Jval → List (String × Jval)
  | [], k, v => [(k, v)]
  | (k', v') :: rest, k, v =>
    if k' = k then (k', v) :: rest else (k', v') :: objInsert rest k v

/-- `Map::remove`: the removed value (if any) and the remaining map. -/
def objRemove : List (String × Jval) → String →
    Option Jval × List (String × Jval)
  | [], _ => (none, [])
  | (k', v') :: rest, k =>
    if k' = k then (some v', rest)
    else
      match objRemove rest k with
      | (r, rest') => (r, (k', v') :: rest')

/-- The `initialization` arm of the merge loop (`merger.rs` lines
69-81): remove the base entry (whatever it is); when both values are
arrays insert base-then-override appended, otherwise insert the
override value. -/
def init_merge_base (base_map : List (String × Jval)) (key : String)
    (over_val : Jval) : List (String × Jval) :=
  let removed := objRemove base_map key
  match removed.1, over_val with
  | some (.arr base_arr), .arr over_arr =>
    objInsert removed.2 key (.arr (base_arr ++ over_arr))
  | _, _ => objInsert removed.2 key over_val

mutual

/-- `deep_merge` (`merger.rs` lines 49-100): objects merge field-wise
(see `merge_fields`); a non-object override replaces the base. -/
def deep_merge : Jval → Jval → Jval
  | .obj base_map, .obj over_map => .obj (merge_fields base_map over_map)
  | _, over => over
termination_by _ over => (sizeOf over, 0)
decreasing_by
  all_goals simp_wf
  all_goals omega

/-- The default arm of the merge loop (`merger.rs` lines 85-92):
recursive merge when the key is present in the base, plain insert
otherwise (`base_map.remove` followed by `insert`). -/
def merge_entry (base_map : List (String × Jval)) (key : String)
    (over_val : Jval) : List (String × Jval) :=
  let removed := objRemove base_map key
  match removed.1 with
  | some base_val => objInsert removed.2 key (deep_merge base_val over_val)
  | none => objInsert removed.2 key over_val
termination_by (sizeOf over_val, 1)
decreasing_by
  all_goals exact Prod.Lex.right _ (by omega)

/-- The `for (key, over_val) in over_map` loop of `deep_merge`
(`merger.rs` lines 54-94): null overrides are skipped; `fan_zones` and
`reset_to_factory` replace; `initialization` appends (see
`init_merge_base`); `extends` is dropped; every other key goes through
`merge_entry`. -/
def merge_fields : List (String × Jval) → List (String × Jval) →
    List (String × Jval)
  | base_map, [] => base_map
  | base_map, (key, over_val) :: rest =>
    if over_val.isNull then merge_fields base_map rest
    else if key = "fan_zones" then
      merge_fields (objInsert base_map key over_val) rest
    else if key = "reset_to_factory" then
      merge_fields (objInsert base_map key over_val) rest
    else if key = "initialization" then
      merge_fields (init_merge_base base_map key over_val) rest
    else if key = "extends" then merge_fields base_map rest
    else merge_fields (merge_entry base_map key over_val) rest
termination_by _ over => (sizeOf over, 2)
decreasing_by
  all_goals simp_wf
  all_goals omega

end

/-- The base object for the C9 witness. -/
def mergeB : List (String × Jval) :=
  [("fan_zones", .str "base_fz"), ("reset_to_factory", .str "base_rf"),
   ("initialization", .arr [.str "b1"]), ("scalar", .num 1),
   ("nested", .obj [("x", .num 1), ("y", .num 2)])]

/-- The child object for the C9 witness. -/
def mergeO : List (String × Jval) :=
  [("fan_zones", .str "child_fz"), ("reset_to_factory", .str "child_rf"),
   ("initialization", .arr [.str "c1"]), ("scalar", .num 9),
   ("nested", .obj [("y", .num 7)])]

/-! ## Claim C8: profile loader safety validation

Serde structs of `profiles/types.rs` and the validation portion of
`load_profile` (`loader.rs` lines 14-54).  File reading, JSON parsing
and `extends` resolution happen before this validation; the claim is
about the profile *after* extends-resolution, which is what
`load_profile_validate` receives. -/

structure Metadata where
  schema_version : String
  vendor : String
  model_family : Option (List String)
  supported_protocols : Option (List String)
  author : Option String
  description : Option String

structure Parsing where
  sdr_format : String
  fan_match_token : String
  temp_match_token : String

structure SpeedTranslation where
  translation_type : String
  params : Jval

structure Command where
  command_type : String
  bytes : Option String

structure FanZoneCommands where
  set_speed : Command

structure FanZone where
  id : String
  name : String
  speed_translation : SpeedTranslation
  commands : FanZoneCommands

structure LifecycleCommand where
  name : String
  command_type : String
  bytes : Option String
  critical : Bool

structure Lifecycle where
  initialization : List LifecycleCommand
  reset_to_factory : List LifecycleCommand

structure IpmiProtocol where
  parsing : Parsing
  fan_zones : List FanZone
  lifecycle : Lifecycle

structure Protocols where
  ipmi : Option IpmiProtocol

structure BmcProfile where
  extends_ : Option String
  metadata : Metadata
  protocols : Option Protocols

/-- `loader.rs` line 31. -/
def ipmi_missing_msg : String :=
  "Profile has no IPMI protocol section after resolution"

/-- `loader.rs` lines 38-41 (the Rust string-literal line continuation
collapses to a single space after "command."). -/
def safety_violation_msg : String :=
  "Safety violation: reset_to_factory must contain at least one critical: true command. Profile rejected to prevent BMC lockout on agent crash."

/-- The validation performed by `load_profile` after parsing and
`extends` resolution (`loader.rs` lines 28-53): require
`protocols.ipmi`, then require at least one `critical: true` command in
`lifecycle.reset_to_factory`; otherwise reject with a fatal error.  The
loader is pure apart from file I/O, so rejection happens before any
hardware operation is possible. -/
def load_profile_validate (profile : BmcProfile) :
    Except String BmcProfile :=
  match profile.protocols.bind Protocols.ipmi with
  | none => .error ipmi_missing_msg
  | some ipmi =>
    if ipmi.lifecycle.reset_to_factory.any LifecycleCommand.critical then
      .ok profile
    else
      .error safety_violation_msg

/-- The S5 lifecycle: a single non-critical `reset_to_factory`
command. -/
def lifecycleS5 : Lifecycle :=
  { initialization := []
    reset_to_factory :=
      [{ name := "X", command_type := "ipmitool_raw",
         bytes := some "0x00", critical := false }] }

/-- The S5 IPMI section. -/
def ipmiS5 : IpmiProtocol :=
  { parsing :=
      { sdr_format := "csv", fan_match_token := "RPM",
        temp_match_token := "degrees C" }
    fan_zones := []
    lifecycle := lifecycleS5 }

/-- The S5 profile of the spec's scenario table. -/
def profileS5 : BmcProfile :=
  { extends_ := none
    metadata :=
      { schema_version := "2.0", vendor := "TestVendor",
        model_family := none, supported_protocols := none,
        author := none, description := none }
    protocols := some { ipmi := some ipmiS5 } }

/-! # Theorems -/

theorem step_dedup (hasEnable : Bool) (st : FanWState) (speed : Nat)
    (env : CallEnv) (hd : st.last_pwm_value = some (pwm_from_percent (min speed 100))) :
    set_fan_speed_step hasEnable st speed env = (.skippedDedup, st) := by
  simp [set_fan_speed_step, hd]

theorem step_rate (hasEnable : Bool) (st : FanWState) (speed : Nat)
    (env : CallEnv)
    (hd : st.last_pwm_value ≠ some (pwm_from_percent (min speed 100)))
    (hr : env.now - st.last_write_time < 100) :
    set_fan_speed_step hasEnable st speed env = (.skippedRate, st) := by
  simp [set_fan_speed_step, hd, hr]

theorem step_written (hasEnable : Bool) (st : FanWState) (speed : Nat)
    (env : CallEnv)
    (hd : st.last_pwm_value ≠ some (pwm_from_percent (min speed 100)))
    (hr : ¬ env.now - st.last_write_time < 100)
    (he : envOk hasEnable env) :
    set_fan_speed_step hasEnable st speed env =
      (.written (pwm_from_percent (min speed 100)),
        ⟨some (pwm_from_percent (min speed 100)), env.now⟩) := by
  obtain ⟨hw, hen⟩ := he
  have henable : ¬ (hasEnable = true ∧ env.enableRead ≠ some "1" ∧ env.enableWriteOk = false) := by
    rintro ⟨h1, h2, h3⟩
    rcases hen h1 with h | h
    · exact h2 h
    · rw [h] at h3; cases h3
  simp [set_fan_speed_step, hd, hr, hw]
  intro h1 h2
  rcases hen h1 with h | h
  · exact absurd h h2
  · exact h

/-! ### Trace invariants for deduplication and rate limiting -/

theorem writes_of_dedup_locked (hasEnable : Bool) (p : Nat) :
    ∀ (calls : List (Nat × CallEnv)) (st : FanWState),
      (∀ c ∈ calls, c.1 = p) →
      st.last_pwm_value = some (pwm_from_percent (min p 100)) →
      writes_of hasEnable st calls = [] := by
  intro calls
  induction calls with
  | nil => intro st _ _; rfl
  | cons c rest ih =>
    intro st hall hlock
    obtain ⟨speed, env⟩ := c
    have hsp : speed = p := hall (speed, env) (List.mem_cons_self _ _)
    subst hsp
    rw [writes_of, step_dedup hasEnable st speed env hlock]
    exact ih st (fun c hc => hall c (List.mem_cons_of_mem _ hc)) hlock

theorem writes_of_same_speed_le_one (hasEnable : Bool) (p : Nat) :
    ∀ (calls : List (Nat × CallEnv)) (st : FanWState),
      (∀ c ∈ calls, c.1 = p ∧ envOk hasEnable c.2) →
      (writes_of hasEnable st calls).length ≤ 1 := by
  intro calls
  induction calls with
  | nil => intro st _; simp [writes_of]
  | cons c rest ih =>
    intro st hall
    obtain ⟨speed, env⟩ := c
    obtain ⟨hsp, henv⟩ := hall (speed, env) (List.mem_cons_self _ _)
    have hrest : ∀ c ∈ rest, c.1 = p ∧ envOk hasEnable c.2 :=
      fun c hc => hall c (List.mem_cons_of_mem _ hc)
    subst hsp
    by_cases hd : st.last_pwm_value = some (pwm_from_percent (min speed 100))
    · rw [writes_of, step_dedup hasEnable st speed env hd]
      exact ih st hrest
    · by_cases hr : env.now - st.last_write_time < 100
      · rw [writes_of, step_rate hasEnable st speed env hd hr]
        exact ih st hrest
      · rw [writes_of, step_written hasEnable st speed env hd hr henv]
        have : writes_of hasEnable
            ⟨some (pwm_from_percent (min speed 100)), env.now⟩ rest = [] :=
          writes_of_dedup_locked hasEnable speed rest _
            (fun c hc => (hrest c hc).1) rfl
        simp [this]

theorem writes_of_same_speed_eq_one (hasEnable : Bool) (p : Nat) :
    ∀ (calls : List (Nat × CallEnv)) (st : FanWState),
      (∀ c ∈ calls, c.1 = p ∧ envOk hasEnable c.2) →
      st.last_pwm_value ≠ some (pwm_from_percent (min p 100)) →
      (∃ c ∈ calls, st.last_write_time + 100 ≤ c.2.now) →
      (writes_of hasEnable st calls).length = 1 := by
  intro calls
  induction calls with
  | nil => intro st _ _ hex; simp at hex
  | cons c rest ih =>
    intro st hall hd hex
    obtain ⟨speed, env⟩ := c
    obtain ⟨hsp, henv⟩ := hall (speed, env) (List.mem_cons_self _ _)
    have hrest : ∀ c ∈ rest, c.1 = p ∧ envOk hasEnable c.2 :=
      fun c hc => hall c (List.mem_cons_of_mem _ hc)
    subst hsp
    by_cases hr : env.now - st.last_write_time < 100
    · rw [writes_of, step_rate hasEnable st speed env hd hr]
      apply ih st hrest hd
      rcases hex with ⟨c, hc, hcn⟩
      rcases List.mem_cons.mp hc with hceq | hcm
      · exfalso
        subst hceq
        exact absurd (show st.last_write_time + 100 ≤ env.now from hcn) (by omega)
      · exact ⟨c, hcm, hcn⟩
    · rw [writes_of, step_written hasEnable st speed env hd hr henv]
      have : writes_of hasEnable
          ⟨some (pwm_from_percent (min speed 100)), env.now⟩ rest = [] :=
        writes_of_dedup_locked hasEnable speed rest _
          (fun c hc => (hrest c hc).1) rfl
      simp [this]

theorem step_enableFailed (hasEnable : Bool) (st : FanWState) (speed : Nat)
    (env : CallEnv)
    (hd : st.last_pwm_value ≠ some (pwm_from_percent (min speed 100)))
    (hr : ¬ env.now - st.last_write_time < 100)
    (he : hasEnable = true ∧ env.enableRead ≠ some "1" ∧ env.enableWriteOk = false) :
    set_fan_speed_step hasEnable st speed env =
      (.enableFailed, { st with last_write_time := env.now }) := by
  simp [set_fan_speed_step, hd, hr, he.1, he.2.1, he.2.2]

theorem step_writeFailed (hasEnable : Bool) (st : FanWState) (speed : Nat)
    (env : CallEnv)
    (hd : st.last_pwm_value ≠ some (pwm_from_percent (min speed 100)))
    (hr : ¬ env.now - st.last_write_time < 100)
    (he : ¬ (hasEnable = true ∧ env.enableRead ≠ some "1" ∧ env.enableWriteOk = false))
    (hw : env.pwmWriteOk = false) :
    set_fan_speed_step hasEnable st speed env =
      (.writeFailed, ⟨none, env.now⟩) := by
  simp only [set_fan_speed_step, if_neg hd, if_neg hr, if_neg he, hw]
  simp

theorem step_written_any (hasEnable : Bool) (st : FanWState) (speed : Nat)
    (env : CallEnv)
    (hd : st.last_pwm_value ≠ some (pwm_from_percent (min speed 100)))
    (hr : ¬ env.now - st.last_write_time < 100)
    (he : ¬ (hasEnable = true ∧ env.enableRead ≠ some "1" ∧ env.enableWriteOk = false))
    (hw : env.pwmWriteOk = true) :
    set_fan_speed_step hasEnable st speed env =
      (.written (pwm_from_percent (min speed 100)),
        ⟨some (pwm_from_percent (min speed 100)), env.now⟩) := by
  simp only [set_fan_speed_step, if_neg hd, if_neg hr, if_neg he, hw]
  simp

theorem writes_of_spaced (hasEnable : Bool) :
    ∀ (calls : List (Nat × CallEnv)) (st : FanWState),
      (∀ w ∈ writes_of hasEnable st calls, st.last_write_time + 100 ≤ w.1) ∧
      List.Chain' (fun a b : Nat × Nat => a.1 + 100 ≤ b.1)
        (writes_of hasEnable st calls) := by
  intro calls
  induction calls with
  | nil =>
    intro st
    refine ⟨?_, ?_⟩
    · intro w hw
      simp [writes_of] at hw
    · simp [writes_of]
  | cons c rest ih =>
    intro st
    obtain ⟨speed, env⟩ := c
    by_cases hd : st.last_pwm_value = some (pwm_from_percent (min speed 100))
    · have heq : writes_of hasEnable st ((speed, env) :: rest)
          = writes_of hasEnable st rest := by
        simp only [writes_of, step_dedup hasEnable st speed env hd]
      rw [heq]
      exact ih st
    · by_cases hr : env.now - st.last_write_time < 100
      · have heq : writes_of hasEnable st ((speed, env) :: rest)
            = writes_of hasEnable st rest := by
          simp only [writes_of, step_rate hasEnable st speed env hd hr]
        rw [heq]
        exact ih st
      · have hnow : st.last_write_time + 100 ≤ env.now := by omega
        by_cases he : hasEnable = true ∧ env.enableRead ≠ some "1" ∧ env.enableWriteOk = false
        · have heq : writes_of hasEnable st ((speed, env) :: rest)
              = writes_of hasEnable { st with last_write_time := env.now } rest := by
            simp only [writes_of, step_enableFailed hasEnable st speed env hd hr he]
          rw [heq]
          refine ⟨?_, (ih _).2⟩
          intro w hw
          have := (ih { st with last_write_time := env.now }).1 w hw
          simp only at this
          omega
        · cases hpw : env.pwmWriteOk with
          | false =>
            have heq : writes_of hasEnable st ((speed, env) :: rest)
                = writes_of hasEnable ⟨none, env.now⟩ rest := by
              simp only [writes_of, step_writeFailed hasEnable st speed env hd hr he hpw]
            rw [heq]
            refine ⟨?_, (ih _).2⟩
            intro w hw
            have := (ih (⟨none, env.now⟩ : FanWState)).1 w hw
            simp only at this
            omega
          | true =>
            have heq : writes_of hasEnable st ((speed, env) :: rest)
                = (env.now, pwm_from_percent (min speed 100)) ::
                  writes_of hasEnable
                    ⟨some (pwm_from_percent (min speed 100)), env.now⟩ rest := by
              simp only [writes_of, step_written_any hasEnable st speed env hd hr he hpw]
            rw [heq]
            have hih := ih (⟨some (pwm_from_percent (min speed 100)), env.now⟩ : FanWState)
            refine ⟨?_, ?_⟩
            · intro w hw
              rcases List.mem_cons.mp hw with hweq | hwm
              · subst hweq
                exact hnow
              · have := hih.1 w hwm
                simp only at this
                omega
            · refine List.chain'_cons'.mpr ⟨?_, hih.2⟩
              intro y hy
              have hym := List.mem_of_mem_head? hy
              have := hih.1 y hym
              simp only at this ⊢
              omega

/-! ## Claims C3, C4, C5: fan write algorithm -/

/-- C3, counterexample.  The claim states the PWM byte written for
percent 50 is `round(50/100*255) = 128 (0x80)`.  The code computes
`(speed as f32 / 100.0 * 255.0) as u8`, which truncates: a first call
at 50% on a freshly discovered fan (100 ms past discovery, all I/O
succeeding) writes byte 127 (0x7f), not 128. -/
theorem set_fan_speed_byte_counterexample :
    (set_fan_speed_step false ⟨none, 0⟩ 50 (goodEnv 100)).1
      = .written 127 ∧ (127 : Nat) ≠ 128 := by decide

/-- C3 (amended): `set_fan_speed` clamps the percent to at most 100
(the argument is a `u8`, so it is never negative), the byte actually
written is the *truncation* `⌊percent/100*255⌋`, and two consecutive
calls `set_fan_speed("chip_fan_1", 50)` on a freshly discovered fan
(first call at least 100 ms after the discovery-initialised write
timestamp) write byte 0x7f exactly once, the second call returning
success with no write. -/
theorem set_fan_speed_clamp_truncate_dedup
    (hasEnable : Bool) (st : FanWState) (speed : Nat) (env : CallEnv)
    (d t1 t2 : Nat) (h1 : d + 100 ≤ t1) :
    set_fan_speed_step hasEnable st speed env
      = set_fan_speed_step hasEnable st (min speed 100) env ∧
    (∀ b, (set_fan_speed_step hasEnable st speed env).1 = .written b →
        b = pwm_from_percent (min speed 100)) ∧
    (writes_of false ⟨none, d⟩ [(50, goodEnv t1), (50, goodEnv t2)]
        = [(t1, 127)] ∧
      (run_fan_calls false ⟨none, d⟩ [(50, goodEnv t1), (50, goodEnv t2)]).1
        = [.written 127, .skippedDedup]) := by
  have hmin : min (min speed 100) 100 = min speed 100 := by omega
  have s1 : set_fan_speed_step false ⟨none, d⟩ 50 (goodEnv t1)
      = (.written 127, ⟨some 127, t1⟩) := by
    have h := step_written false ⟨none, d⟩ 50 (goodEnv t1)
      (by simp) (by simp [goodEnv]; omega) (by simp [envOk, goodEnv])
    simpa [pwm_from_percent] using h
  have s2 : set_fan_speed_step false ⟨some 127, t2⟩ 50 (goodEnv t2)
      = (.skippedDedup, ⟨some 127, t2⟩) :=
    step_dedup false ⟨some 127, t2⟩ 50 (goodEnv t2) (by norm_num [pwm_from_percent])
  have s2' : set_fan_speed_step false ⟨some 127, t1⟩ 50 (goodEnv t2)
      = (.skippedDedup, ⟨some 127, t1⟩) :=
    step_dedup false ⟨some 127, t1⟩ 50 (goodEnv t2) (by norm_num [pwm_from_percent])
  refine ⟨?_, ?_, ?_⟩
  · simp [set_fan_speed_step, hmin]
  · intro b hb
    simp only [set_fan_speed_step] at hb
    split_ifs at hb
    simp_all
  · constructor
    · simp only [writes_of, s1, s2']
      simp [goodEnv]
    · simp only [run_fan_calls, s1, s2']

/-- C3, witness for the amended theorem at `d = 0`, `t1 = 100`,
`t2 = 200`. -/
theorem set_fan_speed_clamp_truncate_dedup_witness :
    writes_of false ⟨none, 0⟩ [(50, goodEnv 100), (50, goodEnv 200)]
      = [(100, 127)] :=
  (set_fan_speed_clamp_truncate_dedup false ⟨none, 0⟩ 30 (goodEnv 7)
    0 100 200 (by decide)).2.2.1

/-- C4, counterexample.  The claim states that after N calls with the
same percentage the PWM write occurs *exactly once regardless of call
timing*.  A freshly discovered fan has `last_write_time` initialised to
the discovery instant (`fans.rs` line 93); two calls at 50% made 10 ms
and 50 ms after discovery are both rate-limited, so zero writes occur. -/
theorem write_dedup_counterexample :
    writes_of false ⟨none, 0⟩ [(50, goodEnv 10), (50, goodEnv 50)] = [] ∧
    (run_fan_calls false ⟨none, 0⟩ [(50, goodEnv 10), (50, goodEnv 50)]).1
      = [.skippedRate, .skippedRate] := by decide

/-- C4 (amended): for every fan and percentage `p`, a sequence of
`set_fan_speed(id, p)` calls with succeeding file I/O performs *at
most* one PWM write; every call whose target byte equals the fan's
last-written byte returns success without any I/O; and the write count
is exactly one provided the fan is not already at the target byte and
some call arrives at least 100 ms after the fan's last-write
timestamp. -/
theorem write_dedup_at_most_once (hasEnable : Bool) (p : Nat)
    (calls : List (Nat × CallEnv)) (st : FanWState)
    (hall : ∀ c ∈ calls, c.1 = p ∧ envOk hasEnable c.2) :
    (writes_of hasEnable st calls).length ≤ 1 ∧
    (∀ (st' : FanWState) (speed : Nat) (env : CallEnv),
        st'.last_pwm_value = some (pwm_from_percent (min speed 100)) →
        set_fan_speed_step hasEnable st' speed env = (.skippedDedup, st') ∧
        FanWriteResult.skippedDedup.isSuccess = true ∧
        FanWriteResult.skippedDedup.didWrite = false) ∧
    (st.last_pwm_value ≠ some (pwm_from_percent (min p 100)) →
      (∃ c ∈ calls, st.last_write_time + 100 ≤ c.2.now) →
      (writes_of hasEnable st calls).length = 1) := by
  refine ⟨writes_of_same_speed_le_one hasEnable p calls st hall, ?_, ?_⟩
  · intro st' speed env h
    exact ⟨step_dedup hasEnable st' speed env h, rfl, rfl⟩
  · intro h hex
    exact writes_of_same_speed_eq_one hasEnable p calls st hall h hex

/-- C4, witness for the amended theorem: three calls at 50%, one of
them 150 ms past discovery, perform exactly one write. -/
theorem write_dedup_at_most_once_witness :
    (writes_of false ⟨none, 0⟩
        [(50, goodEnv 10), (50, goodEnv 150), (50, goodEnv 400)]).length = 1 := by
  have h := write_dedup_at_most_once false 50
    [(50, goodEnv 10), (50, goodEnv 150), (50, goodEnv 400)] ⟨none, 0⟩ (by decide)
  exact h.2.2 (by decide) ⟨(50, goodEnv 150), by decide, by decide⟩

/-- C5, counterexample.  The claim states a distinct-byte call made
when the fan has *no prior write* proceeds to perform the I/O.  A
freshly discovered fan (`last_pwm_value = None`, `last_write_time`
initialised to the discovery instant, `fans.rs` lines 92-93) that
receives a distinct-byte call 50 ms after discovery is rate-limited:
the call returns success and performs no I/O. -/
theorem rate_limit_counterexample :
    (⟨none, 0⟩ : FanWState).last_pwm_value = none ∧
    set_fan_speed_step false ⟨none, 0⟩ 60 (goodEnv 50)
      = (.skippedRate, ⟨none, 0⟩) ∧
    FanWriteResult.skippedRate.didWrite = false ∧
    FanWriteResult.skippedRate.isSuccess = true := by decide

/-- C5 (amended): for every fan, consecutive performed PWM writes are
at least 100 ms apart; a distinct-byte call arriving less than 100 ms
after the fan's last-write timestamp returns success without I/O; and
a distinct-byte call arriving at least 100 ms after the fan's
last-write timestamp (the timestamp is initialised to the discovery
instant, not to a first write) performs the PWM write when this call's
file I/O succeeds. -/
theorem rate_limit_spacing (hasEnable : Bool) (calls : List (Nat × CallEnv))
    (st : FanWState) (speed : Nat) (env : CallEnv)
    (hd : st.last_pwm_value ≠ some (pwm_from_percent (min speed 100))) :
    List.Chain' (fun a b : Nat × Nat => a.1 + 100 ≤ b.1)
      (writes_of hasEnable st calls) ∧
    (env.now - st.last_write_time < 100 →
      set_fan_speed_step hasEnable st speed env = (.skippedRate, st) ∧
      FanWriteResult.skippedRate.isSuccess = true ∧
      FanWriteResult.skippedRate.didWrite = false) ∧
    (st.last_write_time + 100 ≤ env.now → envOk hasEnable env →
      set_fan_speed_step hasEnable st speed env =
        (.written (pwm_from_percent (min speed 100)),
          ⟨some (pwm_from_percent (min speed 100)), env.now⟩)) := by
  refine ⟨(writes_of_spaced hasEnable calls st).2, ?_, ?_⟩
  · intro hr
    exact ⟨step_rate hasEnable st speed env hd hr, rfl, rfl⟩
  · intro hge he
    exact step_written hasEnable st speed env hd (by omega) he

/-- C5, witness for the amended theorem: a distinct-byte call 200 ms
after discovery performs the write. -/
theorem rate_limit_spacing_witness :
    set_fan_speed_step false ⟨none, 0⟩ 60 (goodEnv 200)
      = (.written (pwm_from_percent (min 60 100)),
          ⟨some (pwm_from_percent (min 60 100)), (goodEnv 200).now⟩) :=
  (rate_limit_spacing false [(60, goodEnv 100)] ⟨none, 0⟩ 60 (goodEnv 200)
    (by decide)).2.2 (by decide) (by decide)

/-- Per-fan write state is preserved by a single upsert. -/
theorem upsert_fan_preserves (m : List (String × FanInfo)) (id : String)
    (p : FanPaths) (now : Nat) (id0 : String) (info : FanInfo)
    (h : alookup m id0 = some info) :
    ∃ info', alookup (upsert_fan m id p now) id0 = some info' ∧
      info'.last_pwm_value = info.last_pwm_value ∧
      info'.last_write_time = info.last_write_time := by
  unfold upsert_fan
  cases hl : alookup m id with
  | none =>
    refine ⟨info, ?_, rfl, rfl⟩
    induction m with
    | nil => simp [alookup] at h
    | cons kv r ih =>
      obtain ⟨k, v⟩ := kv
      by_cases hk : k = id0
      · subst hk
        simp [alookup] at h ⊢
        simp [alookup] at hl
        by_cases hkid : k = id
        · simp [hkid] at hl
        · exact h
      · simp [alookup, hk] at h ⊢
        simp [alookup] at hl
        by_cases hkid : k = id
        · simp [hkid] at hl
        · simp [hkid] at hl
          exact ih h hl
  | some e =>
    clear hl
    induction m with
    | nil => simp [alookup] at h
    | cons kv r ih =>
      obtain ⟨k, v⟩ := kv
      by_cases hkid : k = id
      · subst hkid
        simp [refresh_in_map]
        by_cases hk0 : k = id0
        · subst hk0
          simp [alookup] at h ⊢
          simp [refresh_paths, ← h]
        · simp [alookup, hk0] at h ⊢
          exact ⟨info, h, rfl, rfl⟩
      · simp [refresh_in_map, hkid]
        by_cases hk0 : k = id0
        · subst hk0
          simp [alookup] at h ⊢
          simp [← h]
        · simp [alookup, hk0] at h ⊢
          exact ih h

theorem preserves_write_state_refl (m : List (String × FanInfo)) :
    preserves_write_state m m :=
  fun _ info h => ⟨info, h, rfl, rfl⟩

theorem preserves_write_state_trans {m1 m2 m3 : List (String × FanInfo)}
    (h12 : preserves_write_state m1 m2) (h23 : preserves_write_state m2 m3) :
    preserves_write_state m1 m3 := by
  intro id info h
  obtain ⟨i2, h2, p2, t2⟩ := h12 id info h
  obtain ⟨i3, h3, p3, t3⟩ := h23 id i2 h2
  exact ⟨i3, h3, p3.trans p2, t3.trans t2⟩

theorem fan_entry_step_preserves (chip dirPath : String) (now : Nat)
    (acc : List Fan × List (String × FanInfo)) (f : FanFile) :
    preserves_write_state acc.2 (fan_entry_step chip dirPath now acc f).2 := by
  unfold fan_entry_step
  by_cases hp : f.pwmExists = true
  · rw [if_pos hp]
    intro id info h
    exact upsert_fan_preserves acc.2 _ _ now id info h
  · rw [if_neg hp]
    exact preserves_write_state_refl _

theorem fan_files_foldl_preserves (chip dirPath : String) (now : Nat) :
    ∀ (files : List FanFile) (acc : List Fan × List (String × FanInfo)),
      preserves_write_state acc.2
        (files.foldl (fan_entry_step chip dirPath now) acc).2 := by
  intro files
  induction files with
  | nil => intro acc; exact preserves_write_state_refl _
  | cons f rest ih =>
    intro acc
    rw [List.foldl_cons]
    exact preserves_write_state_trans
      (fan_entry_step_preserves chip dirPath now acc f)
      (ih (fan_entry_step chip dirPath now acc f))

theorem fan_dir_step_preserves (now : Nat)
    (acc : List Fan × List (String × FanInfo)) (d : FanDir) :
    preserves_write_state acc.2 (fan_dir_step now acc d).2 := by
  unfold fan_dir_step
  split_ifs
  · cases d.nameRead with
    | some chip => exact fan_files_foldl_preserves chip d.path now d.fanFiles acc
    | none => exact preserves_write_state_refl _
  · exact preserves_write_state_refl _

theorem fan_dirs_foldl_preserves (now : Nat) :
    ∀ (dirs : List FanDir) (acc : List Fan × List (String × FanInfo)),
      preserves_write_state acc.2
        (dirs.foldl (fan_dir_step now) acc).2 := by
  intro dirs
  induction dirs with
  | nil => intro acc; exact preserves_write_state_refl _
  | cons d rest ih =>
    intro acc
    rw [List.foldl_cons]
    exact preserves_write_state_trans
      (fan_dir_step_preserves now acc d)
      (ih (fan_dir_step now acc d))

/-- C1: for every fan already present in the fan map, a
`discover_hwmon_fans` cycle leaves that fan's `last_pwm_value` and
`last_write_time` unchanged — only the discovery-derived fields (PWM
path, RPM path, PWM-enable path, chip name) can change — and the fan is
still present afterwards: the map is never cleared by discovery. -/
theorem discover_fans_preserves_write_state (fs : FanFs)
    (m : List (String × FanInfo)) (now : Nat) (id : String) (info : FanInfo)
    (h : alookup m id = some info) :
    ∃ info', alookup (discover_hwmon_fans fs m now).2 id = some info' ∧
      info'.last_pwm_value = info.last_pwm_value ∧
      info'.last_write_time = info.last_write_time := by
  unfold discover_hwmon_fans
  split_ifs
  · exact fan_dirs_foldl_preserves now fs.dirs ([], m) id info h
  · exact ⟨info, h, rfl, rfl⟩

/-- C1, witness: a map holding one fan with a cached byte 127 written
at t=500 goes through a discovery cycle over a one-directory tree that
rediscovers the same fan; the byte and timestamp survive. -/
theorem discover_fans_preserves_write_state_witness :
    ∃ info', alookup
        (discover_hwmon_fans
          ⟨true, [⟨"/sys/class/hwmon/hwmon0", true, some "nct6775",
            [⟨"1", some "1200", some "127", true, true⟩]⟩]⟩
          [("nct6775_fan_1",
            ⟨"/sys/class/hwmon/hwmon0/pwm1",
             "/sys/class/hwmon/hwmon0/fan1_input",
             some "/sys/class/hwmon/hwmon0/pwm1_enable",
             "nct6775", some 127, 500⟩)]
          9000).2 "nct6775_fan_1" = some info' ∧
      info'.last_pwm_value = some 127 ∧
      info'.last_write_time = 500 :=
  discover_fans_preserves_write_state
    ⟨true, [⟨"/sys/class/hwmon/hwmon0", true, some "nct6775",
      [⟨"1", some "1200", some "127", true, true⟩]⟩]⟩
    [("nct6775_fan_1",
      ⟨"/sys/class/hwmon/hwmon0/pwm1",
       "/sys/class/hwmon/hwmon0/fan1_input",
       some "/sys/class/hwmon/hwmon0/pwm1_enable",
       "nct6775", some 127, 500⟩)]
    9000 "nct6775_fan_1"
    ⟨"/sys/class/hwmon/hwmon0/pwm1",
     "/sys/class/hwmon/hwmon0/fan1_input",
     some "/sys/class/hwmon/hwmon0/pwm1_enable",
     "nct6775", some 127, 500⟩
    (by simp [alookup])

/-- C6: `discover_sensors` performs the full hwmon traversal
(repopulating the cache, updating the hot-plug count, clearing the
from-cache flag) if and only if the current hwmon directory count
differs from the cached count or the cache is empty; otherwise it
serves the call from the cached paths (a sensor appears in the fast
path exactly when its cached file re-read and parse succeed — failures
are skipped), leaves cache and count untouched and sets the flag. -/
theorem discover_sensors_cache_fastpath (env : MonEnv) (fs : SFs)
    (st : MonState) :
    ((discover_sensors env fs st).2.last_discovery_from_cache = false ↔
      (count_hwmon_dirs fs ≠ st.cached_hwmon_count ∨
        st.discovered_sensors.isEmpty = true)) ∧
    ((count_hwmon_dirs fs ≠ st.cached_hwmon_count ∨
        st.discovered_sensors.isEmpty = true) →
      discover_sensors env fs st =
        (discover_hwmon_sensors env fs,
          { discovered_sensors :=
              cache_from_sensors (discover_hwmon_sensors env fs)
            cached_hwmon_count := count_hwmon_dirs fs
            last_discovery_from_cache := false })) ∧
    (¬(count_hwmon_dirs fs ≠ st.cached_hwmon_count ∨
        st.discovered_sensors.isEmpty = true) →
      discover_sensors env fs st =
        (read_sensors_from_cache st.discovered_sensors fs.readFile,
          { st with last_discovery_from_cache := true })) ∧
    (∀ s, s ∈ read_sensors_from_cache st.discovered_sensors fs.readFile ↔
      ∃ kv ∈ st.discovered_sensors, ∃ raw,
        (fs.readFile kv.2.temp_input_path).bind parseI32 = some raw ∧
        s = sensor_from_cache kv.2 raw) := by
  by_cases hcond : count_hwmon_dirs fs ≠ st.cached_hwmon_count ∨
      st.discovered_sensors.isEmpty = true
  · have hc1 : ¬count_hwmon_dirs fs = st.cached_hwmon_count ∨
        st.discovered_sensors = [] := by
      simpa [List.isEmpty_iff] using hcond
    refine ⟨?_, fun _ => ?_, fun hn => absurd hcond hn, ?_⟩
    · simp [discover_sensors, hc1]
    · simp [discover_sensors, hc1]
    · intro s
      simp only [read_sensors_from_cache, List.mem_filterMap,
        Option.map_eq_some']
      constructor
      · rintro ⟨kv, hkv, raw, hraw, hs⟩
        exact ⟨kv, hkv, raw, hraw, hs.symm⟩
      · rintro ⟨kv, hkv, raw, hraw, hs⟩
        exact ⟨kv, hkv, raw, hraw, hs.symm⟩
  · have hc2 : count_hwmon_dirs fs = st.cached_hwmon_count := by
      by_contra hne
      exact hcond (Or.inl hne)
    have hc3 : ¬ st.discovered_sensors = [] := by
      intro hemp
      exact hcond (Or.inr (by simp [hemp]))
    refine ⟨?_, fun hc => absurd hc hcond, fun _ => ?_, ?_⟩
    · simp [discover_sensors, hc2, hc3]
    · simp [discover_sensors, hc2, hc3]
    · intro s
      simp only [read_sensors_from_cache, List.mem_filterMap,
        Option.map_eq_some']
      constructor
      · rintro ⟨kv, hkv, raw, hraw, hs⟩
        exact ⟨kv, hkv, raw, hraw, hs.symm⟩
      · rintro ⟨kv, hkv, raw, hraw, hs⟩
        exact ⟨kv, hkv, raw, hraw, hs.symm⟩

/-- C6, witness: with an empty cache the condition holds, and
`discover_sensors` takes the full path. -/
theorem discover_sensors_cache_fastpath_witness :
    discover_sensors envW fsW ⟨[], 0, false⟩ =
      (discover_hwmon_sensors envW fsW,
        { discovered_sensors :=
            cache_from_sensors (discover_hwmon_sensors envW fsW)
          cached_hwmon_count := count_hwmon_dirs fsW
          last_discovery_from_cache := false }) :=
  (discover_sensors_cache_fastpath envW fsW ⟨[], 0, false⟩).2.1
    (Or.inr rfl)

/-- C10: the cache fast path does *not* reproduce the full-discovery
record for the same raw reading.  At 42500 millidegrees the full path
(`sensors.rs` line 104, `temp_celsius.round() * 10.0 / 10.0`, an
integer rounding — the `* 10.0 / 10.0` is a no-op) produces 43 °C,
while the cache path (`monitor.rs` line 166,
`(temp_celsius * 10.0).round() / 10.0`, one-decimal rounding) produces
42.5 °C; every other field of the two records agrees.  The `f64`
computations are exact here: 42.5, 425 and 43 are all dyadic and tiny
relative to the mantissa.  The full-path expression is an
operator-precedence slip — the cache path spells out the clearly
intended one-decimal rounding — so the code, not the claim, is
wrong. -/
theorem sensor_cache_fullpath_temperature_mismatch :
    discover_hwmon_sensors envT fsT = [sFull] ∧
    read_sensors_from_cache (cache_from_sensors [sFull]) fsT.readFile
      = [sFast] ∧
    sFull.temperature = 43 ∧
    sFast.temperature = 85/2 ∧
    sFast.id = sFull.id ∧ sFast.name = sFull.name ∧
    sFast.sensor_type = sFull.sensor_type ∧
    sFast.max_temp = sFull.max_temp ∧ sFast.crit_temp = sFull.crit_temp ∧
    sFull ≠ sFast := by
  have htF : sFull.temperature = 43 := by
    norm_num [sFull, roundAway]
  have htC : sFast.temperature = 85/2 := by
    norm_num [sFast, roundAway]
  refine ⟨rfl, rfl, htF, htC, rfl, rfl, rfl, rfl, rfl, ?_⟩
  intro h
  have ht := congrArg Sensor.temperature h
  rw [htF, htC] at ht
  norm_num at ht

theorem backoff_wait_eq (B : ℚ) (rc : Nat) :
    backoff_wait B rc = B * claimed_multiplier rc := by
  match rc with
  | 0 => simp [backoff_wait, claimed_multiplier]
  | 1 => rfl
  | 2 => rfl
  | (n + 3) => rfl

theorem claimed_multiplier_saturates (k : Nat) (h : 3 ≤ k) :
    claimed_multiplier k = 3 := by
  match k, h with
  | (n + 3), _ => rfl

theorem run_waits_replicate (B : ℚ) :
    ∀ (n rc : Nat),
      (run_waits B rc (List.replicate n false)).1
        = (List.range n).map (fun k => B * claimed_multiplier (rc + k)) := by
  intro n
  induction n with
  | zero => intro rc; simp [run_waits]
  | succ m ih =>
    intro rc
    rw [List.replicate_succ, List.range_succ_eq_map]
    have hmult : ∀ k, claimed_multiplier (min (rc + 1) 3 + k)
        = claimed_multiplier (rc + (k + 1)) := by
      intro k
      by_cases h : rc + 1 ≤ 3
      · rw [min_eq_left h]
        congr 1
        omega
      · rw [min_eq_right (by omega)]
        rw [claimed_multiplier_saturates _ (by omega),
          claimed_multiplier_saturates _ (by omega)]
    simp only [run_waits, if_neg (by simp : ¬(false = true))]
    rw [ih (min (rc + 1) 3)]
    simp only [List.map_cons, List.map_map]
    refine congrArg₂ List.cons ?_ ?_
    · rw [backoff_wait_eq]
      norm_num
    · refine List.map_congr_left ?_
      intro k _
      simp only [Function.comp]
      rw [hmult]

theorem run_waits_counter_le (B : ℚ) :
    ∀ (evs : List Bool) (rc : Nat), rc ≤ 3 → (run_waits B rc evs).2 ≤ 3 := by
  intro evs
  induction evs with
  | nil => intro rc h; simpa [run_waits] using h
  | cons ok rest ih =>
    intro rc h
    simp only [run_waits]
    exact ih _ (by omega)

/-- C7: starting from a fresh counter, N consecutive connection
failures with reconnect interval B produce the wait sequence
B, 1.4B, 2B, 3B, 3B, …; the multiplier saturates at 3 from the fourth
failure on; the counter never exceeds 3; and after a successful
connection the counter is reset, so the next wait is B again no matter
how many failures preceded the success. -/
theorem backoff_sequence (B : ℚ) (N : Nat) (rc : Nat) (rest : List Bool) :
    (run_waits B 0 (List.replicate N false)).1
      = (List.range N).map (fun k => B * claimed_multiplier k) ∧
    (∀ k, 3 ≤ k → claimed_multiplier k = 3) ∧
    (rc ≤ 3 → (run_waits B rc (List.replicate N false)).2 ≤ 3) ∧
    (run_waits B rc (true :: rest)).1 = B :: (run_waits B 1 rest).1 := by
  refine ⟨?_, claimed_multiplier_saturates, run_waits_counter_le B _ rc, ?_⟩
  · rw [run_waits_replicate]
    simp
  · simp [run_waits, backoff_wait]

/-- C7, witness: with B = 5 s, five failures wait 5, 7, 10, 15, 15
seconds; a success after any history resets the next wait to 5 s. -/
theorem backoff_sequence_witness :
    (run_waits 5 0 (List.replicate 5 false)).1 = [5, 7, 10, 15, 15] ∧
    (run_waits 5 3 [true]).1 = [5] := by
  have h := backoff_sequence (5 : ℚ) 5 3 []
  constructor
  · rw [h.1]
    simp [List.range_succ, claimed_multiplier]
    norm_num
  · rw [h.2.2.2]
    simp [run_waits]

theorem containsL_append_right (p : List Char) :
    ∀ (s t : List Char), containsL t p = true → containsL (s ++ t) p = true := by
  intro s
  induction s with
  | nil => intro t h; simpa using h
  | cons c s' ih =>
    intro t h
    simp only [List.cons_append, containsL, Bool.or_eq_true]
    exact Or.inr (ih t h)

/-- C2: with the `.update_pending` marker and the `.old` backup both
present at process start: a marker not containing `booted=true` is
appended with `booted=true` and startup continues (the marker then does
contain `booted=true`, and the binary is untouched); a marker
containing `booted=true` triggers rollback — the current binary is
replaced by the `.old` backup, the backup and the marker are removed,
and the process re-executes.  (The verification code is modelled from
the spec; see `startup_update_check`.) -/
theorem startup_update_verification (fs : UpdateFs)
    (hm : fs.markerExists = true) (ho : fs.oldExists = true) :
    (hasSub fs.markerContent "booted=true" = false →
      startup_update_check fs =
        (.firstBoot,
          { fs with markerContent := fs.markerContent ++ "\nbooted=true" }) ∧
      hasSub (fs.markerContent ++ "\nbooted=true") "booted=true" = true) ∧
    (hasSub fs.markerContent "booted=true" = true →
      startup_update_check fs =
        (.rollback,
          { fs with
            currentBinary := fs.oldBinary
            oldExists := false
            markerExists := false })) := by
  constructor
  · intro hno
    refine ⟨by simp [startup_update_check, hm, ho, hno], ?_⟩
    show containsL (fs.markerContent.data ++ ("\nbooted=true" : String).data) _ = true
    exact containsL_append_right _ _ _ (by decide)
  · intro hyes
    simp [startup_update_check, hm, ho, hyes]

/-- C2, witness: a marker `from=0.1.0\nto=0.2.0` (no `booted=true`) is
appended and startup continues; the resulting marker
`from=0.1.0\nto=0.2.0\nbooted=true` triggers rollback on the next
boot. -/
theorem startup_update_verification_witness :
    startup_update_check
        ⟨true, "from=0.1.0\nto=0.2.0", true, "OLDBIN", "NEWBIN"⟩ =
      (.firstBoot,
        ⟨true, "from=0.1.0\nto=0.2.0\nbooted=true", true, "OLDBIN", "NEWBIN"⟩) ∧
    startup_update_check
        ⟨true, "from=0.1.0\nto=0.2.0\nbooted=true", true, "OLDBIN", "NEWBIN"⟩ =
      (.rollback,
        ⟨false, "from=0.1.0\nto=0.2.0\nbooted=true", false, "OLDBIN", "OLDBIN"⟩) := by
  constructor
  · exact ((startup_update_verification
      ⟨true, "from=0.1.0\nto=0.2.0", true, "OLDBIN", "NEWBIN"⟩ rfl rfl).1
        (by decide)).1
  · exact (startup_update_verification
      ⟨true, "from=0.1.0\nto=0.2.0\nbooted=true", true, "OLDBIN", "NEWBIN"⟩
        rfl rfl).2 (by decide)

theorem alookup_objInsert_self (m : List (String × Jval)) (k : String)
    (v : Jval) : alookup (objInsert m k v) k = some v := by
  induction m with
  | nil => simp [objInsert, alookup]
  | cons kv rest ih =>
    obtain ⟨k', v'⟩ := kv
    by_cases h : k' = k
    · simp [objInsert, h, alookup]
    · simp [objInsert, h, alookup, ih]

theorem alookup_objInsert_ne (m : List (String × Jval)) (k : String)
    (v : Jval) (j : String) (h : j ≠ k) :
    alookup (objInsert m k v) j = alookup m j := by
  induction m with
  | nil => simp [objInsert, alookup, Ne.symm h]
  | cons kv rest ih =>
    obtain ⟨k', v'⟩ := kv
    by_cases hk : k' = k
    · subst hk
      simp [objInsert, alookup, Ne.symm h]
    · by_cases hj : k' = j
      · subst hj
        simp [objInsert, hk, alookup]
      · simp [objInsert, hk, alookup, hj, ih]

theorem objRemove_fst (m : List (String × Jval)) (k : String) :
    (objRemove m k).1 = alookup m k := by
  induction m with
  | nil => rfl
  | cons kv rest ih =>
    obtain ⟨k', v'⟩ := kv
    by_cases h : k' = k
    · simp [objRemove, h, alookup]
    · rcases hr : objRemove rest k with ⟨r, rest'⟩
      have hih : r = alookup rest k := by
        have h2 := ih
        rw [hr] at h2
        simpa using h2
      simp [objRemove, h, hr, alookup, hih]

theorem alookup_objRemove_ne (m : List (String × Jval)) (k : String)
    (j : String) (h : j ≠ k) :
    alookup (objRemove m k).2 j = alookup m j := by
  induction m with
  | nil => rfl
  | cons kv rest ih =>
    obtain ⟨k', v'⟩ := kv
    by_cases hk : k' = k
    · subst hk
      simp [objRemove, alookup, Ne.symm h]
    · rcases hr : objRemove rest k with ⟨r, rest'⟩
      have hih : alookup rest' j = alookup rest j := by
        have h2 := ih
        rw [hr] at h2
        simpa using h2
      by_cases hj : k' = j
      · subst hj
        simp [objRemove, hk, hr, alookup]
      · simp [objRemove, hk, hr, alookup, hj, hih]

theorem merge_fields_nil (b : List (String × Jval)) :
    merge_fields b [] = b := by
  rw [merge_fields.eq_def]

theorem init_merge_base_shape (b : List (String × Jval)) (key : String)
    (v : Jval) :
    ∃ x, init_merge_base b key v = objInsert (objRemove b key).2 key x := by
  unfold init_merge_base
  dsimp only
  split
  · exact ⟨_, rfl⟩
  · exact ⟨_, rfl⟩

theorem alookup_init_merge_base_ne (b : List (String × Jval)) (key : String)
    (v : Jval) (j : String) (hj : j ≠ key) :
    alookup (init_merge_base b key v) j = alookup b j := by
  obtain ⟨x, hx⟩ := init_merge_base_shape b key v
  rw [hx, alookup_objInsert_ne _ _ _ _ hj]
  exact alookup_objRemove_ne b key j hj

theorem merge_entry_shape (b : List (String × Jval)) (key : String)
    (v : Jval) :
    ∃ x, merge_entry b key v = objInsert (objRemove b key).2 key x := by
  rw [merge_entry.eq_def]
  dsimp only
  split
  · exact ⟨_, rfl⟩
  · exact ⟨_, rfl⟩

theorem alookup_merge_entry_ne (b : List (String × Jval)) (key : String)
    (v : Jval) (j : String) (hj : j ≠ key) :
    alookup (merge_entry b key v) j = alookup b j := by
  obtain ⟨x, hx⟩ := merge_entry_shape b key v
  rw [hx, alookup_objInsert_ne _ _ _ _ hj]
  exact alookup_objRemove_ne b key j hj

theorem merge_fields_cons_preserve (b : List (String × Jval)) (key : String)
    (v : Jval) (rest : List (String × Jval)) :
    ∃ b', merge_fields b ((key, v) :: rest) = merge_fields b' rest ∧
      ∀ j, j ≠ key → alookup b' j = alookup b j := by
  by_cases hn : v.isNull = true
  · exact ⟨b, by rw [merge_fields.eq_def]; simp [hn], fun _ _ => rfl⟩
  · by_cases hfz : key = "fan_zones"
    · exact ⟨objInsert b key v, by rw [merge_fields.eq_def]; simp [hn, hfz],
        fun j hj => alookup_objInsert_ne b key v j hj⟩
    · by_cases hrf : key = "reset_to_factory"
      · exact ⟨objInsert b key v,
          by rw [merge_fields.eq_def]; simp [hn, hfz, hrf],
          fun j hj => alookup_objInsert_ne b key v j hj⟩
      · by_cases hin : key = "initialization"
        · exact ⟨init_merge_base b key v,
            by rw [merge_fields.eq_def]; simp [hn, hfz, hrf, hin],
            fun j hj => alookup_init_merge_base_ne b key v j hj⟩
        · by_cases hex : key = "extends"
          · exact ⟨b,
              by rw [merge_fields.eq_def]; simp [hn, hfz, hrf, hin, hex],
              fun _ _ => rfl⟩
          · exact ⟨merge_entry b key v,
              by rw [merge_fields.eq_def]; simp [hn, hfz, hrf, hin, hex],
              fun j hj => alookup_merge_entry_ne b key v j hj⟩

theorem merge_fields_stable (k : String) :
    ∀ (o : List (String × Jval)) (b : List (String × Jval)),
      (∀ kv ∈ o, kv.1 ≠ k) →
      alookup (merge_fields b o) k = alookup b k := by
  intro o
  induction o with
  | nil => intro b _; exact congrArg (alookup · k) (merge_fields_nil b)
  | cons kv rest ih =>
    intro b h
    obtain ⟨key, v⟩ := kv
    obtain ⟨b', heq, hpres⟩ := merge_fields_cons_preserve b key v rest
    rw [heq, ih b' (fun kv hkv => h kv (List.mem_cons_of_mem _ hkv))]
    exact hpres k
      (fun he => h (key, v) (List.mem_cons_self _ _) he.symm)

theorem deep_merge_obj (b o : List (String × Jval)) :
    deep_merge (.obj b) (.obj o) = .obj (merge_fields b o) := by
  simp [deep_merge]

theorem deep_merge_non_obj (base v : Jval) (hv : ∀ f, v ≠ .obj f) :
    deep_merge base v = v := by
  cases v with
  | obj f => exact absurd rfl (hv f)
  | null => cases base <;> simp [deep_merge]
  | bool x => cases base <;> simp [deep_merge]
  | num x => cases base <;> simp [deep_merge]
  | str x => cases base <;> simp [deep_merge]
  | arr x => cases base <;> simp [deep_merge]

theorem not_mem_keys_ne {rest : List (String × Jval)} {key : String}
    (h : key ∉ rest.map Prod.fst) :
    ∀ kv ∈ rest, kv.1 ≠ key := by
  intro kv hkv he
  rw [← he] at h
  exact h (List.mem_map_of_mem Prod.fst hkv)

theorem merge_fields_replace_key (k : String)
    (hk : k = "fan_zones" ∨ k = "reset_to_factory") :
    ∀ (o b : List (String × Jval)) (fz : Jval),
      alookup o k = some fz → fz.isNull = false →
      (o.map Prod.fst).Nodup →
      alookup (merge_fields b o) k = some fz := by
  intro o
  induction o with
  | nil => intro b fz h _ _; simp [alookup] at h
  | cons kv rest ih =>
    intro b fz hlk hnn hnd
    obtain ⟨key, v⟩ := kv
    rw [List.map_cons, List.nodup_cons] at hnd
    obtain ⟨hkey_not, hnd'⟩ := hnd
    by_cases hkk : key = k
    · subst hkk
      have hv : v = fz := by simpa [alookup] using hlk
      subst hv
      have heq : merge_fields b ((key, v) :: rest)
          = merge_fields (objInsert b key v) rest := by
        rw [merge_fields.eq_def]
        rcases hk with h | h <;> subst h <;> simp [hnn]
      rw [heq, merge_fields_stable key rest (objInsert b key v)
        (not_mem_keys_ne hkey_not)]
      exact alookup_objInsert_self b key v
    · have hlk' : alookup rest k = some fz := by
        simpa [alookup, hkk] using hlk
      obtain ⟨b', heq, _⟩ := merge_fields_cons_preserve b key v rest
      rw [heq]
      exact ih b' fz hlk' hnn hnd'

theorem merge_fields_initialization :
    ∀ (o b : List (String × Jval)) (a c : List Jval),
      alookup b "initialization" = some (.arr a) →
      alookup o "initialization" = some (.arr c) →
      (o.map Prod.fst).Nodup →
      alookup (merge_fields b o) "initialization" = some (.arr (a ++ c)) := by
  intro o
  induction o with
  | nil => intro b a c _ h _; simp [alookup] at h
  | cons kv rest ih =>
    intro b a c hb hlk hnd
    obtain ⟨key, v⟩ := kv
    rw [List.map_cons, List.nodup_cons] at hnd
    obtain ⟨hkey_not, hnd'⟩ := hnd
    by_cases hkk : key = "initialization"
    · subst hkk
      have hv : v = .arr c := by simpa [alookup] using hlk
      subst hv
      have heq : merge_fields b (("initialization", Jval.arr c) :: rest)
          = merge_fields (init_merge_base b "initialization" (.arr c)) rest := by
        rw [merge_fields.eq_def]
        simp [Jval.isNull]
      have hfst : (objRemove b "initialization").1 = some (Jval.arr a) := by
        rw [objRemove_fst]
        exact hb
      have hinit : init_merge_base b "initialization" (.arr c)
          = objInsert (objRemove b "initialization").2 "initialization"
              (.arr (a ++ c)) := by
        unfold init_merge_base
        dsimp only
        rw [hfst]
      rw [heq, merge_fields_stable "initialization" rest _
        (not_mem_keys_ne hkey_not)]
      rw [hinit]
      exact alookup_objInsert_self _ _ _
    · have hlk' : alookup rest "initialization" = some (.arr c) := by
        simpa [alookup, hkk] using hlk
      obtain ⟨b', heq, hpres⟩ := merge_fields_cons_preserve b key v rest
      rw [heq]
      have hb' : alookup b' "initialization" = some (.arr a) := by
        rw [hpres "initialization" (fun he => hkk he.symm)]
        exact hb
      exact ih b' a c hb' hlk' hnd'

theorem merge_fields_default_key (k : String)
    (hk1 : k ≠ "fan_zones") (hk2 : k ≠ "reset_to_factory")
    (hk3 : k ≠ "initialization") (hk4 : k ≠ "extends") :
    ∀ (o b : List (String × Jval)) (v : Jval),
      alookup o k = some v → v.isNull = false →
      (o.map Prod.fst).Nodup →
      alookup (merge_fields b o) k =
        some (match alookup b k with
              | some bv => deep_merge bv v
              | none => v) := by
  intro o
  induction o with
  | nil => intro b v h _ _; simp [alookup] at h
  | cons kv rest ih =>
    intro b v hlk hnn hnd
    obtain ⟨key, u⟩ := kv
    rw [List.map_cons, List.nodup_cons] at hnd
    obtain ⟨hkey_not, hnd'⟩ := hnd
    by_cases hkk : key = k
    · subst hkk
      have hv : u = v := by simpa [alookup] using hlk
      subst hv
      have heq : merge_fields b ((key, u) :: rest)
          = merge_fields (merge_entry b key u) rest := by
        rw [merge_fields.eq_def]
        simp [hnn, hk1, hk2, hk3, hk4]
      have hentry : merge_entry b key u
          = objInsert (objRemove b key).2 key
              (match alookup b key with
               | some bv => deep_merge bv u
               | none => u) := by
        rw [merge_entry.eq_def]
        dsimp only
        rw [objRemove_fst]
        cases alookup b key <;> rfl
      rw [heq, merge_fields_stable key rest _
        (not_mem_keys_ne hkey_not)]
      rw [hentry]
      exact alookup_objInsert_self _ _ _
    · have hlk' : alookup rest k = some v := by
        simpa [alookup, hkk] using hlk
      obtain ⟨b', heq, hpres⟩ := merge_fields_cons_preserve b key u rest
      rw [heq]
      rw [ih b' v hlk' hnn hnd']
      rw [hpres k (fun he => hkk he.symm)]

/-- C9: for a base object and an overriding (child) object with
duplicate-free keys, the deep merge satisfies: `fan_zones` and
`reset_to_factory` present (non-null) in the child replace the base's;
`initialization` arrays concatenate base-then-child; any other child
key holding a non-null scalar (non-object) replaces whatever the base
had; any other key holding objects on both sides merges key-wise (the
recursive merge, in which the child again takes precedence); and
`deep_merge` on two objects is exactly this field merge. -/
theorem deep_merge_rules (B O : List (String × Jval))
    (hnd : (O.map Prod.fst).Nodup) :
    (∀ fz, alookup O "fan_zones" = some fz → fz.isNull = false →
      alookup (merge_fields B O) "fan_zones" = some fz) ∧
    (∀ rf, alookup O "reset_to_factory" = some rf → rf.isNull = false →
      alookup (merge_fields B O) "reset_to_factory" = some rf) ∧
    (∀ (a c : List Jval), alookup B "initialization" = some (.arr a) →
      alookup O "initialization" = some (.arr c) →
      alookup (merge_fields B O) "initialization" = some (.arr (a ++ c))) ∧
    (∀ (k : String) (v : Jval), k ≠ "fan_zones" → k ≠ "reset_to_factory" →
      k ≠ "initialization" → k ≠ "extends" →
      alookup O k = some v → v.isNull = false → (∀ f, v ≠ .obj f) →
      alookup (merge_fields B O) k = some v) ∧
    (∀ (k : String) (bb oo : List (String × Jval)),
      k ≠ "fan_zones" → k ≠ "reset_to_factory" →
      k ≠ "initialization" → k ≠ "extends" →
      alookup B k = some (.obj bb) → alookup O k = some (.obj oo) →
      alookup (merge_fields B O) k = some (.obj (merge_fields bb oo))) ∧
    deep_merge (.obj B) (.obj O) = .obj (merge_fields B O) := by
  refine ⟨?_, ?_, ?_, ?_, ?_, deep_merge_obj B O⟩
  · intro fz h hn
    exact merge_fields_replace_key "fan_zones" (Or.inl rfl) O B fz h hn hnd
  · intro rf h hn
    exact merge_fields_replace_key "reset_to_factory" (Or.inr rfl) O B rf h hn hnd
  · intro a c hb ho
    exact merge_fields_initialization O B a c hb ho hnd
  · intro k v h1 h2 h3 h4 ho hn hobj
    have := merge_fields_default_key k h1 h2 h3 h4 O B v ho hn hnd
    rw [this]
    cases hb : alookup B k with
    | none => rfl
    | some bv => simp [deep_merge_non_obj bv v hobj]
  · intro k bb oo h1 h2 h3 h4 hb ho
    have := merge_fields_default_key k h1 h2 h3 h4 O B (.obj oo) ho rfl hnd
    rw [this, hb]
    simp [deep_merge_obj]

/-- C9, witness: merging the two concrete objects replaces
`fan_zones`/`reset_to_factory`, appends `initialization`, replaces the
scalar and recursively merges the nested object. -/
theorem deep_merge_rules_witness :
    alookup (merge_fields mergeB mergeO) "fan_zones"
      = some (.str "child_fz") ∧
    alookup (merge_fields mergeB mergeO) "reset_to_factory"
      = some (.str "child_rf") ∧
    alookup (merge_fields mergeB mergeO) "initialization"
      = some (.arr [.str "b1", .str "c1"]) ∧
    alookup (merge_fields mergeB mergeO) "scalar" = some (.num 9) ∧
    alookup (merge_fields mergeB mergeO) "nested"
      = some (.obj (merge_fields [("x", .num 1), ("y", .num 2)]
          [("y", .num 7)])) := by
  have h := deep_merge_rules mergeB mergeO (by simp [mergeO])
  refine ⟨h.1 _ rfl rfl, h.2.1 _ rfl rfl,
    h.2.2.1 [.str "b1"] [.str "c1"] rfl rfl, ?_, ?_⟩
  · exact h.2.2.2.1 "scalar" (.num 9) (by decide) (by decide) (by decide)
      (by decide) rfl rfl (fun f hf => Jval.noConfusion hf)
  · exact h.2.2.2.2.1 "nested" [("x", .num 1), ("y", .num 2)] [("y", .num 7)]
      (by decide) (by decide) (by decide) (by decide) rfl rfl

/-- C8: the loader rejects, with a fatal error and before any hardware
operation, every profile that after extends-resolution lacks a
`protocols.ipmi` section or whose `reset_to_factory` contains no
`critical: true` command; in the latter case the error message mentions
"Safety" and "critical".  Conversely a profile with the section and a
critical reset command passes. -/
theorem load_profile_rejects_violations (p : BmcProfile) :
    (p.protocols.bind Protocols.ipmi = none →
      load_profile_validate p = .error ipmi_missing_msg) ∧
    (∀ ipmi, p.protocols.bind Protocols.ipmi = some ipmi →
      (∀ cmd ∈ ipmi.lifecycle.reset_to_factory, cmd.critical = false) →
      load_profile_validate p = .error safety_violation_msg ∧
      hasSub safety_violation_msg "critical" = true ∧
      hasSub safety_violation_msg "Safety" = true) ∧
    (∀ ipmi, p.protocols.bind Protocols.ipmi = some ipmi →
      (∃ cmd ∈ ipmi.lifecycle.reset_to_factory, cmd.critical = true) →
      load_profile_validate p = .ok p) := by
  refine ⟨?_, ?_, ?_⟩
  · intro h
    simp [load_profile_validate, h]
  · intro ipmi h hall
    have hany : ipmi.lifecycle.reset_to_factory.any LifecycleCommand.critical
        = false := by
      rw [List.any_eq_false]
      intro cmd hcmd
      simp [hall cmd hcmd]
    refine ⟨?_, by decide, by decide⟩
    simp [load_profile_validate, h, hany]
  · intro ipmi h hex
    have hany : ipmi.lifecycle.reset_to_factory.any LifecycleCommand.critical
        = true := by
      rw [List.any_eq_true]
      obtain ⟨cmd, hcmd, hc⟩ := hex
      exact ⟨cmd, hcmd, hc⟩
    simp [load_profile_validate, h, hany]

/-- C8, witness: the S5 profile is rejected with the safety message,
which mentions "critical" and "Safety". -/
theorem load_profile_rejects_violations_witness :
    load_profile_validate profileS5 = .error safety_violation_msg ∧
    hasSub safety_violation_msg "critical" = true ∧
    hasSub safety_violation_msg "Safety" = true :=
  (load_profile_rejects_violations profileS5).2.1 ipmiS5 rfl
    (by
      intro cmd h
      rw [show ipmiS5.lifecycle.reset_to_factory
          = [{ name := "X", command_type := "ipmitool_raw",
               bytes := some "0x00", critical := false }] from rfl,
        List.mem_singleton] at h
      subst h
      rfl)
